import Mathlib

/-!
# Verification of the `ticha` scraper core

Shallow embedding of the core of the `ticha` repository
(`src/ticha/core/scraper.py` and `src/ticha/core/text_scraper.py`).

Python strings are sequences of Unicode code points; we model them as
`List Nat` (one `Nat` per code point).  The helper `str` encodes a Lean
string literal as its code-point list so that concrete examples stay
readable.  Python dicts are modelled as their insertion sequence of
key/value pairs, with lookup giving the value of the last matching pair
(later insertions override earlier ones).
-/

namespace Ticha

/-- Encode a Lean string literal as the list of its Unicode code points,
the way we model Python strings. -/
def str (s : String) : List Nat := s.data.map Char.toNat

/-! ## Character classes

The normalizer in `text_scraper.py` works through Python `str.strip`,
`str.lower` and the `re` module.  We embed the character-level behaviour
of those primitives on the Basic Latin (ASCII) and Latin-1 ranges, which
cover every code point this development evaluates; each definition is a
faithful fragment of the corresponding Python behaviour. -/

/-- Python `str.strip` / regex `\s` whitespace membership, restricted to
the Basic Latin and Latin-1 ranges: ASCII whitespace plus NEL (`0x85`)
and NBSP (`0xA0`). -/
def isPySpace (c : Nat) : Bool :=
  c = 32 || c = 9 || c = 10 || c = 11 || c = 12 || c = 13 || c = 0x85 || c = 0xA0

/-- The separator class `[\s\-\.]` of `_normalize_metadata_key`
(text_scraper.py line 61): whitespace, hyphen-minus and full stop. -/
def isSepChar (c : Nat) : Bool :=
  isPySpace c || c = 45 || c = 46

/-- Python regex `\w` (word character) membership, restricted to the Basic
Latin and Latin-1 ranges: underscore, ASCII letters and digits, and the
Latin-1 word code points — feminine/masculine ordinals (`0xAA`, `0xBA`),
micro sign (`0xB5`), superscript digits (`0xB2`, `0xB3`, `0xB9`), vulgar
fractions (`0xBC`–`0xBE`) and the accented letters `0xC0`–`0xFF` minus
the multiplication (`0xD7`) and division (`0xF7`) signs.  Note that
Python `\w` is Unicode-aware: accented letters such as `ñ` are word
characters. -/
def isWordChar (c : Nat) : Bool :=
  c = 95 || (97 ≤ c && c ≤ 122) || (65 ≤ c && c ≤ 90) || (48 ≤ c && c ≤ 57) ||
  c = 0xAA || c = 0xBA || c = 0xB5 || c = 0xB2 || c = 0xB3 || c = 0xB9 ||
  (0xBC ≤ c && c ≤ 0xBE) ||
  (0xC0 ≤ c && c ≤ 0xFF && !(c = 0xD7) && !(c = 0xF7))

/-- Python `str.lower` on a single code point, restricted to the Basic
Latin and Latin-1 ranges: `A`–`Z` and the Latin-1 uppercase letters
`0xC0`–`0xDE` (minus the multiplication sign `0xD7`) map 32 code points
up; everything else in these ranges is fixed. -/
def lowerChar (c : Nat) : Nat :=
  if 65 ≤ c ∧ c ≤ 90 then c + 32
  else if 0xC0 ≤ c ∧ c ≤ 0xDE ∧ ¬(c = 0xD7) then c + 32
  else c

/-- The character set `[a-z0-9_]` named by the spec for normalized keys. -/
def okChar (c : Nat) : Bool :=
  c = 95 || (97 ≤ c && c ≤ 122) || (48 ≤ c && c ≤ 57)

/-! ## The key normalizer

`TichaTextScraper._normalize_metadata_key` (text_scraper.py lines 48–69):

    normalized = key.strip().lower()
    normalized = re.sub(r"[\s\-\.]+", "_", normalized)
    normalized = re.sub(r"[^\w_]", "", normalized)
    normalized = re.sub(r"_+", "_", normalized)
    normalized = normalized.strip("_")
-/

/-- Python `str.strip()`: drop leading and trailing whitespace. -/
def pyStrip (l : List Nat) : List Nat :=
  List.rdropWhile isPySpace (l.dropWhile isPySpace)

/-- Model of `re.sub(r"[\s\-\.]+", "_", s)`: replace every maximal run of separator
code points by a single underscore.  The flag records whether the scan is
currently inside a separator run. -/
def subSepsAux : Bool → List Nat → List Nat
  | _, [] => []
  | inRun, c :: cs =>
    if isSepChar c then
      if inRun then subSepsAux true cs
      else 95 :: subSepsAux true cs
    else c :: subSepsAux false cs

/-- Model of `re.sub(r"[\s\-\.]+", "_", s)`. -/
def subSeps (l : List Nat) : List Nat := subSepsAux false l

/-- Model of `re.sub(r"_+", "_", s)`: collapse every run of underscores to a single
underscore.  The flag records whether the previous kept code point was an
underscore of a still-open run. -/
def collapseUAux : Bool → List Nat → List Nat
  | _, [] => []
  | prevU, c :: cs =>
    if c = 95 then
      if prevU then collapseUAux true cs
      else 95 :: collapseUAux true cs
    else c :: collapseUAux false cs

/-- Model of `re.sub(r"_+", "_", s)`. -/
def collapseUnderscores (l : List Nat) : List Nat := collapseUAux false l

/-- Python `s.strip("_")`: drop leading and trailing underscores. -/
def stripUnderscores (l : List Nat) : List Nat :=
  List.rdropWhile (fun c => c == 95) (l.dropWhile (fun c => c == 95))

/-- Model of `TichaTextScraper._normalize_metadata_key` (text_scraper.py
lines 48–69), as the composition of its five steps. -/
def normalizeKey (l : List Nat) : List Nat :=
  stripUnderscores (collapseUnderscores
    (List.filter isWordChar (subSeps ((pyStrip l).map lowerChar))))

/-- Shape invariant claimed for normalized keys: no leading underscore, no
trailing underscore, no two consecutive underscores. -/
def GoodUnderscoreShape (l : List Nat) : Prop :=
  l.head? ≠ some 95 ∧ l.getLast? ≠ some 95 ∧
  l.Chain' (fun a b => a = 95 → b ≠ 95)

/-! ## Character-level facts -/

theorem lowerChar_idem (c : Nat) : lowerChar (lowerChar c) = lowerChar c := by
  simp only [lowerChar]
  split_ifs <;> omega

theorem isWordChar_not_sep {c : Nat} (h : isWordChar c = true) :
    isSepChar c = false := by
  revert h
  simp only [isWordChar, isSepChar, isPySpace, Bool.or_eq_true, Bool.and_eq_true,
    Bool.not_eq_true', decide_eq_true_eq, decide_eq_false_iff_not, Bool.or_eq_false_iff,
    Bool.and_eq_false_iff, decide_eq_true_iff]
  omega

theorem isWordChar_not_space {c : Nat} (h : isWordChar c = true) :
    isPySpace c = false := by
  have := isWordChar_not_sep h
  revert this
  simp only [isSepChar, Bool.or_eq_false_iff]
  exact fun h => h.1.1

theorem isWordChar_underscore : isWordChar 95 = true := by decide

/-! ## Membership through the normalizer pipeline -/

theorem pyStrip_sublist (l : List Nat) : List.Sublist (pyStrip l) l :=
  (( List.rdropWhile_prefix _ _).sublist).trans (List.dropWhile_suffix _).sublist

theorem stripUnderscores_sublist (l : List Nat) : List.Sublist (stripUnderscores l) l :=
  (( List.rdropWhile_prefix _ _).sublist).trans (List.dropWhile_suffix _).sublist

theorem mem_subSepsAux {c : Nat} :
    ∀ (b : Bool) (l : List Nat), c ∈ subSepsAux b l →
      c = 95 ∨ (c ∈ l ∧ isSepChar c = false) := by
  intro b l
  induction l generalizing b with
  | nil => simp [subSepsAux]
  | cons d ds ih =>
    simp only [subSepsAux]
    by_cases hd : isSepChar d = true
    · simp only [hd, if_true]
      cases b with
      | true =>
        intro h
        rcases ih true h with h95 | ⟨hm, hs⟩
        · exact Or.inl h95
        · exact Or.inr ⟨List.mem_cons_of_mem _ hm, hs⟩
      | false =>
        intro h
        rcases List.mem_cons.mp h with h95 | h'
        · exact Or.inl h95
        · rcases ih true h' with h95 | ⟨hm, hs⟩
          · exact Or.inl h95
          · exact Or.inr ⟨List.mem_cons_of_mem _ hm, hs⟩
    · simp only [hd, if_false]
      intro h
      rcases List.mem_cons.mp h with rfl | h'
      · exact Or.inr ⟨List.mem_cons_self _ _, Bool.eq_false_iff.mpr hd⟩
      · rcases ih false h' with h95 | ⟨hm, hs⟩
        · exact Or.inl h95
        · exact Or.inr ⟨List.mem_cons_of_mem _ hm, hs⟩

theorem mem_collapseUAux {c : Nat} :
    ∀ (b : Bool) (l : List Nat), c ∈ collapseUAux b l → c ∈ l := by
  intro b l
  induction l generalizing b with
  | nil => simp [collapseUAux]
  | cons d ds ih =>
    simp only [collapseUAux]
    by_cases hd : d = 95
    · subst hd
      cases b with
      | true => exact fun h => List.mem_cons_of_mem _ (ih true h)
      | false =>
        intro h
        rcases List.mem_cons.mp h with rfl | h'
        · exact List.mem_cons_self _ _
        · exact List.mem_cons_of_mem _ (ih true h')
    · simp only [hd, if_false]
      intro h
      rcases List.mem_cons.mp h with rfl | h'
      · exact List.mem_cons_self _ _
      · exact List.mem_cons_of_mem _ (ih false h')

/-- Decomposition of membership in a normalized key: every code point of
the output is a word character, and is either the underscore introduced by
separator substitution or a lowercased code point of the stripped input. -/
theorem mem_normalizeKey {c : Nat} {l : List Nat} (h : c ∈ normalizeKey l) :
    isWordChar c = true ∧ (c = 95 ∨ c ∈ (pyStrip l).map lowerChar) := by
  unfold normalizeKey at h
  have h1 := (stripUnderscores_sublist _).subset h
  unfold collapseUnderscores at h1
  have h2 := mem_collapseUAux false _ h1
  refine ⟨List.of_mem_filter h2, ?_⟩
  have h3 := List.mem_of_mem_filter h2
  rcases mem_subSepsAux false _ h3 with h95 | ⟨hm, _⟩
  · exact Or.inl h95
  · exact Or.inr hm

/-! ## Shape of the normalizer output -/

/-- After the collapse step has just emitted an underscore, the remainder
of its output cannot start with another underscore. -/
theorem head?_collapseUAux_true :
    ∀ l : List Nat, (collapseUAux true l).head? ≠ some 95 := by
  intro l
  induction l with
  | nil => simp [collapseUAux]
  | cons d ds ih =>
    simp only [collapseUAux]
    by_cases hd : d = 95
    · simpa [hd] using ih
    · simp [hd]

theorem chain'_collapseUAux :
    ∀ (b : Bool) (l : List Nat),
      (collapseUAux b l).Chain' (fun x y => x = 95 → y ≠ 95) := by
  intro b l
  induction l generalizing b with
  | nil => simp [collapseUAux]
  | cons d ds ih =>
    simp only [collapseUAux]
    by_cases hd : d = 95
    · subst hd
      cases b with
      | true => exact ih true
      | false =>
        simp only [Bool.false_eq_true, if_false, if_true]
        rw [List.chain'_cons']
        refine ⟨?_, ih true⟩
        intro y hy _
        intro hy95
        subst hy95
        exact head?_collapseUAux_true ds (Option.mem_def.mp hy)
    · simp only [hd, if_false]
      rw [List.chain'_cons']
      refine ⟨?_, ih false⟩
      intro y _ hdy
      exact absurd hdy hd

theorem stripUnderscores_head? (l : List Nat) :
    (stripUnderscores l).head? ≠ some 95 := by
  intro h
  unfold stripUnderscores at h
  obtain ⟨t, ht⟩ :=
    List.rdropWhile_prefix (fun c => c == 95) (l.dropWhile (fun c => c == 95))
  have hm : (l.dropWhile (fun c => c == 95)).head? = some 95 := by
    rw [← ht, List.head?_append, h]
    rfl
  have hne : l.dropWhile (fun c => c == 95) ≠ [] := by
    intro h0
    rw [h0] at hm
    simp at hm
  have hnot := List.head_dropWhile_not (fun c => c == 95) l hne
  rw [List.head?_eq_head hne] at hm
  have : (l.dropWhile (fun c => c == 95)).head hne = 95 := by
    injection hm
  simp [this] at hnot

theorem stripUnderscores_getLast? (l : List Nat) :
    (stripUnderscores l).getLast? ≠ some 95 := by
  intro h
  unfold stripUnderscores at h
  have hne : List.rdropWhile (fun c => c == 95) (l.dropWhile (fun c => c == 95)) ≠ [] := by
    intro h0
    rw [h0] at h
    simp at h
  have hnot := List.rdropWhile_last_not (fun c => c == 95) _ hne
  rw [List.getLast?_eq_getLast _ hne] at h
  have : (List.rdropWhile (fun c => c == 95)
      (l.dropWhile (fun c => c == 95))).getLast hne = 95 := by
    injection h
  simp [this] at hnot

/-! ## Identity lemmas used for idempotence -/

theorem dropWhile_eq_self_of_forall {p : Nat → Bool} {l : List Nat}
    (h : ∀ c ∈ l, p c = false) : l.dropWhile p = l := by
  cases l with
  | nil => rfl
  | cons d ds =>
    rw [List.dropWhile_cons, h d (List.mem_cons_self _ _)]
    simp

theorem rdropWhile_eq_self_of_forall {p : Nat → Bool} {l : List Nat}
    (h : ∀ c ∈ l, p c = false) : List.rdropWhile p l = l := by
  rw [List.rdropWhile_eq_self_iff]
  intro hl
  have := h _ (List.getLast_mem hl)
  simp [this]

theorem pyStrip_eq_self {l : List Nat} (h : ∀ c ∈ l, isPySpace c = false) :
    pyStrip l = l := by
  unfold pyStrip
  rw [dropWhile_eq_self_of_forall h]
  exact rdropWhile_eq_self_of_forall h

theorem map_lowerChar_eq_self {l : List Nat} (h : ∀ c ∈ l, lowerChar c = c) :
    l.map lowerChar = l :=
  (List.map_congr_left h).trans (List.map_id l)

theorem subSepsAux_eq_self :
    ∀ (b : Bool) (l : List Nat), (∀ c ∈ l, isSepChar c = false) →
      subSepsAux b l = l := by
  intro b l
  induction l generalizing b with
  | nil => intro _; rfl
  | cons d ds ih =>
    intro h
    have hd := h d (List.mem_cons_self _ _)
    simp only [subSepsAux, hd, Bool.false_eq_true, if_false]
    congr 1
    exact ih false (fun c hc => h c (List.mem_cons_of_mem _ hc))

theorem collapseUAux_eq_self :
    ∀ (b : Bool) (l : List Nat), l.Chain' (fun x y => x = 95 → y ≠ 95) →
      (b = true → l.head? ≠ some 95) → collapseUAux b l = l := by
  intro b l
  induction l generalizing b with
  | nil => intros; rfl
  | cons d ds ih =>
    intro hch hhd
    simp only [collapseUAux]
    by_cases hd : d = 95
    · subst hd
      cases b with
      | true => exact absurd rfl (hhd rfl)
      | false =>
        simp only [Bool.false_eq_true, if_false, if_true]
        congr 1
        apply ih true
        · exact (List.chain'_cons'.mp hch).2
        · intro _ hh
          exact (List.chain'_cons'.mp hch).1 95 (Option.mem_def.mpr hh) rfl rfl
    · simp only [hd, if_false]
      congr 1
      apply ih false
      · exact (List.chain'_cons'.mp hch).2
      · intro h; exact Bool.noConfusion h

theorem stripUnderscores_eq_self {l : List Nat} (h1 : l.head? ≠ some 95)
    (h2 : l.getLast? ≠ some 95) : stripUnderscores l = l := by
  unfold stripUnderscores
  have hd : l.dropWhile (fun c => c == 95) = l := by
    cases l with
    | nil => rfl
    | cons d ds =>
      rw [List.dropWhile_cons]
      have hne : d ≠ 95 := by
        intro h
        exact h1 (by simp [h])
      simp [hne]
  rw [hd, List.rdropWhile_eq_self_iff]
  intro hl
  have hlast : l.getLast hl ≠ 95 := by
    intro h
    exact h2 (by rw [List.getLast?_eq_getLast _ hl, h])
  simp [hlast]

/-! ## Structure of normalized keys -/

theorem normalizeKey_shape (l : List Nat) : GoodUnderscoreShape (normalizeKey l) := by
  refine ⟨stripUnderscores_head? _, stripUnderscores_getLast? _, ?_⟩
  have hc := chain'_collapseUAux false
    (List.filter isWordChar (subSeps ((pyStrip l).map lowerChar)))
  unfold normalizeKey stripUnderscores collapseUnderscores
  exact List.Chain'.prefix (hc.suffix (List.dropWhile_suffix _))
    ( List.rdropWhile_prefix _ _)

theorem normalizeKey_lower_fixed {c : Nat} {l : List Nat}
    (h : c ∈ normalizeKey l) : lowerChar c = c := by
  rcases (mem_normalizeKey h).2 with rfl | hm
  · decide
  · obtain ⟨d, _, rfl⟩ := List.mem_map.mp hm
    exact lowerChar_idem d

theorem normalizeKey_idem (l : List Nat) :
    normalizeKey (normalizeKey l) = normalizeKey l := by
  have hword : ∀ c ∈ normalizeKey l, isWordChar c = true :=
    fun c hc => (mem_normalizeKey hc).1
  have hshape := normalizeKey_shape l
  have h1 : pyStrip (normalizeKey l) = normalizeKey l :=
    pyStrip_eq_self (fun c hc => isWordChar_not_space (hword c hc))
  have h2 : (normalizeKey l).map lowerChar = normalizeKey l :=
    map_lowerChar_eq_self (fun c hc => normalizeKey_lower_fixed hc)
  have h3 : subSeps (normalizeKey l) = normalizeKey l :=
    subSepsAux_eq_self false _ (fun c hc => isWordChar_not_sep (hword c hc))
  have h4 : List.filter isWordChar (normalizeKey l) = normalizeKey l :=
    List.filter_eq_self.mpr hword
  have h5 : collapseUnderscores (normalizeKey l) = normalizeKey l :=
    collapseUAux_eq_self false _ hshape.2.2 (fun h => Bool.noConfusion h)
  have h6 : stripUnderscores (normalizeKey l) = normalizeKey l :=
    stripUnderscores_eq_self hshape.1 hshape.2.1
  show stripUnderscores (collapseUnderscores (List.filter isWordChar
    (subSeps ((pyStrip (normalizeKey l)).map lowerChar)))) = normalizeKey l
  rw [h1, h2, h3, h4, h5, h6]

/-- On ASCII input every code point of the normalized key lies in
`[a-z0-9_]`. -/
theorem normalizeKey_ascii_ok {c : Nat} {l : List Nat} (hl : ∀ d ∈ l, d < 128)
    (h : c ∈ normalizeKey l) : okChar c = true := by
  obtain ⟨hw, hm⟩ := mem_normalizeKey h
  rcases hm with rfl | hm
  · decide
  · obtain ⟨d, hd, rfl⟩ := List.mem_map.mp hm
    have hd128 : d < 128 := hl d ((pyStrip_sublist l).subset hd)
    revert hw
    simp only [lowerChar, okChar, isWordChar, Bool.or_eq_true, Bool.and_eq_true,
      decide_eq_true_eq, Bool.not_eq_true', decide_eq_false_iff_not]
    split_ifs with h1 h2 <;> intro hw <;> omega

/-! ## Python dicts

A Python dict is modelled by its insertion sequence of key/value pairs;
`dictGet` returns the value of the last pair with the given key, because a
later insertion overrides an earlier one.  Keys are Python strings
(`List Nat`); values of the scraped records are either a Python string or
`None`, modelled by `PyVal`. -/

/-- A Python value that is either a string or `None` (also standing for a
pandas missing value). -/
abbrev PyVal := Option (List Nat)

/-- A Python dict with string keys, as its insertion sequence. -/
abbrev Dict (V : Type) := List (List Nat × V)

/-- Look a key up: the value of the last matching pair wins. -/
def dictGet {V : Type} : Dict V → List Nat → Option V
  | [], _ => none
  | (k', v) :: rest, k =>
    match dictGet rest k with
    | some w => some w
    | none => if k' = k then some v else none

/-- The keys of a dict, in insertion order. -/
def dictKeys {V : Type} (d : Dict V) : List (List Nat) := d.map Prod.fst

theorem dictGet_append {V : Type} (a b : Dict V) (k : List Nat) :
    dictGet (a ++ b) k =
      match dictGet b k with
      | some w => some w
      | none => dictGet a k := by
  induction a with
  | nil =>
    simp only [List.nil_append]
    cases dictGet b k <;> simp [dictGet]
  | cons p rest ih =>
    obtain ⟨k', v⟩ := p
    simp only [List.cons_append, dictGet, List.append_eq]
    rw [ih]
    cases dictGet b k <;> cases dictGet rest k <;> simp

/-! ## The document page scraper (`text_scraper.py`)

`TichaTextScraper` parses a detail page with BeautifulSoup.  We model a
fetched page by what the extraction code observes of it: for each div id
(`metadata`, `transcription`, `interLinear`, `modern_spanish`) either
`none` when `soup.find` locates no such div, or the list of the text
contents of its `<p>` tags. -/

/-- A parsed detail page as `scrape_document` observes it. -/
structure Page where
  metadataDiv : Option (List (List Nat))
  transcriptionDiv : Option (List (List Nat))
  interLinearDiv : Option (List (List Nat))
  modernSpanishDiv : Option (List (List Nat))

/-- Split a Python string at the first colon, as `text.split(":", 1)` does
for a text containing a colon; `none` when no colon occurs. -/
def splitColon : List Nat → Option (List Nat × List Nat)
  | [] => none
  | c :: cs =>
    if c = 58 then some ([], cs)
    else (splitColon cs).map (fun p => (c :: p.1, p.2))

/-- Model of `TichaTextScraper._extract_metadata` (text_scraper.py lines 71–113):
iterate the `<p>` tags of the metadata div, skip blank texts and texts
with no colon, and store `normalize(label) -> value.strip()` for the
rest; an absent metadata div contributes nothing. -/
def extractMetadata (div : Option (List (List Nat))) : Dict (List Nat) :=
  match div with
  | none => []
  | some ps =>
    ps.foldl (fun md t =>
      let text := pyStrip t
      if text = [] then md
      else
        match splitColon text with
        | some (k, v) => md ++ [(normalizeKey k, pyStrip v)]
        | none => md) []

/-- The paragraph-gathering loop of `_extract_text_content` (text_scraper.py
lines 132–137): strip each paragraph text and keep the non-empty ones. -/
def gatherParas : List (List Nat) → List (List Nat)
  | [] => []
  | p :: ps =>
    let t := pyStrip p
    if t = [] then gatherParas ps else t :: gatherParas ps

/-- Model of `TichaTextScraper._extract_text_content` (text_scraper.py lines
115–152): an absent div yields `none` (its `<p>` list is empty); otherwise
the stripped non-empty paragraphs are joined with a blank-line separator,
and `none` is returned when no paragraph survives. -/
def extractTextContent (div : Option (List (List Nat))) : Option (List Nat) :=
  let p_tags := match div with
    | none => []
    | some ps => ps
  let paragraphs := gatherParas p_tags
  if paragraphs = [] then none
  else some (List.intercalate (str ("\n\n")) paragraphs)

/-- The result of one `scrape_document` call: the returned dict, plus an
observation counting how many times `_intelligent_delay` ran during the
call. -/
structure ScrapeResult where
  record : Dict PyVal
  delays : Nat

/-- Model of `TichaTextScraper.scrape_document` (text_scraper.py lines 154–202),
taking the fetch outcome as input: `none` models `_get_page` returning
`None` (non-200 response), after which `BeautifulSoup(None, ...)` raises
and the `except` branch returns the `{url, error}` record without reaching
the `_intelligent_delay()` call; `some page` models a fetched page, for
which the metadata dict and the three content fields are combined into one
dict — the four fixed entries first, then the metadata entries, so a
metadata entry inserted later overrides a fixed field of the same name —
and `_intelligent_delay()` runs once before returning.  The input URL is
the already resolved document URL. -/
def scrape_document (fetched : Option Page) (document_url : List Nat) :
    ScrapeResult :=
  match fetched with
  | none =>
    { record := [(str ("url"), some document_url),
                 (str ("error"), some (str ("TypeError")))],
      delays := 0 }
  | some page =>
    let metadata := extractMetadata page.metadataDiv
    let transcription := extractTextContent page.transcriptionDiv
    let interlinear := extractTextContent page.interLinearDiv
    let modern_spanish := extractTextContent page.modernSpanishDiv
    let document_data : Dict PyVal :=
      [(str ("url"), some document_url),
       (str ("transcription"), transcription),
       (str ("interlinear"), interlinear),
       (str ("modern_spanish"), modern_spanish)] ++
      metadata.map (fun p => (p.1, some p.2))
    { record := document_data, delays := 1 }

/-- The merge performed for each row by `scrape_documents_from_dataframe`
(text_scraper.py line 239): `{**row.to_dict(), **doc_data}` — the row
entries are inserted first, then the document entries. -/
def combineRecord (row doc : Dict PyVal) : Dict PyVal := row ++ doc

/-- The row filter of `scrape_documents_from_dataframe` (line 222):
`df[link_column].notna() & (df[link_column] != "")`.  A missing value
(`none`) fails `notna`; an empty string fails the second test. -/
def linkNonEmpty (row : Dict PyVal) (link_column : List Nat) : Bool :=
  match dictGet row link_column with
  | some (some v) => !v.isEmpty
  | _ => false

/-- Model of `TichaTextScraper.scrape_documents_from_dataframe` (text_scraper.py
lines 204–248), with the network abstracted as `fetch`.  Note line 224:
`if max_documents:` tests Python truthiness, so both `None` and `0` skip
the `head` truncation. -/
def scrape_documents_from_dataframe (fetch : List Nat → Option Page)
    (df : List (Dict PyVal)) (link_column : List Nat)
    (max_documents : Option Nat) : List (Dict PyVal) :=
  let valid_df := df.filter (fun r => linkNonEmpty r link_column)
  let valid_df :=
    match max_documents with
    | some m => if m = 0 then valid_df else valid_df.take m
    | none => valid_df
  valid_df.map (fun row =>
    let document_url :=
      match dictGet row link_column with
      | some (some v) => v
      | _ => []
    let doc_data := (scrape_document (fetch document_url) document_url).record
    combineRecord row doc_data)

/-- Wrapping every value of a dict in `some` commutes with lookup. -/
theorem dictGet_map_some (d : Dict (List Nat)) (k : List Nat) :
    dictGet (d.map (fun p => (p.1, some p.2))) k = (dictGet d k).map some := by
  induction d with
  | nil => rfl
  | cons p rest ih =>
    obtain ⟨k', v⟩ := p
    simp only [List.map_cons, dictGet, ih]
    cases dictGet rest k
    · by_cases hk : k' = k <;> simp [hk]
    · simp

/-- The paragraph-gathering loop is the strip-then-drop-empties pipeline
described by the spec. -/
theorem gatherParas_eq (ps : List (List Nat)) :
    gatherParas ps = (ps.map pyStrip).filter (fun t => !t.isEmpty) := by
  induction ps with
  | nil => rfl
  | cons p ps ih =>
    simp only [gatherParas, List.map_cons, List.filter_cons]
    by_cases h : pyStrip p = []
    · simp [h, ih]
    · simp [h, ih, List.isEmpty_eq_false]

/-- A detail page whose metadata div holds a label normalizing to `url`,
colliding with the fixed `url` field. -/
def collidingPage : Page :=
  { metadataDiv := some [str ("URL: meta")],
    transcriptionDiv := none,
    interLinearDiv := none,
    modernSpanishDiv := none }

/-! ## The listing scraper (`scraper.py`)

`TichaScraper` drives a browser over the paginated manuscript table.  We
model a rendered table cell by its visible text and its optional embedded
anchor element, and the site by the rows each page shows and the `class`
attribute of the `myTable_next` pagination button on each page (`none`
when the button is absent). -/

/-- An `<a>` element inside a table cell: visible label and `href`
attribute (`none` when the attribute is missing). -/
structure Anchor where
  label : List Nat
  href : Option (List Nat)

/-- A rendered table cell. -/
structure Cell where
  text : List Nat
  anchor : Option Anchor

/-- Model of `TichaScraper._extract_text_from_cell` (scraper.py lines 55–63): the
trimmed label of the embedded link when one exists, otherwise the trimmed
cell text. -/
def extract_text_from_cell (cell : Cell) : List Nat :=
  match cell.anchor with
  | some a => pyStrip a.label
  | none => pyStrip cell.text

/-- Model of `TichaScraper._extract_link_from_cell` (scraper.py lines 65–72):
the `href` of the embedded link; `None` when there is no link, no `href`
attribute, or an empty `href` (`return href if href else None`). -/
def extract_link_from_cell (cell : Cell) : Option (List Nat) :=
  match cell.anchor with
  | some a =>
    match a.href with
    | some h => if h.isEmpty then none else some h
    | none => none
  | none => none

/-- One row of `TichaScraper._extract_table_data` (scraper.py lines
101–131): a row with fewer than 10 cells is skipped; otherwise the fixed
10-column record is built (note the key `trptn_status` at line 121), and
the row is accepted only when `document_name` and `ticha_id` are
non-empty. -/
def extract_row (cells : List Cell) : Option (Dict PyVal) :=
  match cells with
  | c0 :: c1 :: c2 :: c3 :: c4 :: c5 :: c6 :: c7 :: c8 :: c9 :: _ =>
    let row_data : Dict PyVal :=
      [(str ("document_name"), some (extract_text_from_cell c0)),
       (str ("document_link"), extract_link_from_cell c0),
       (str ("file_type"), some (extract_text_from_cell c1)),
       (str ("ticha_id"), some (pyStrip c2.text)),
       (str ("year"), some (extract_text_from_cell c3)),
       (str ("town"), some (extract_text_from_cell c4)),
       (str ("archive"), some (extract_text_from_cell c5)),
       (str ("doc_type"), some (extract_text_from_cell c6)),
       (str ("language"), some (extract_text_from_cell c7)),
       (str ("trptn_status"), some (extract_text_from_cell c8)),
       (str ("legibility"), some (extract_text_from_cell c9))]
    if !(extract_text_from_cell c0).isEmpty && !(pyStrip c2.text).isEmpty then
      some row_data
    else none
  | _ => none

/-- Model of `TichaScraper._extract_table_data` over the rows of the current page. -/
def extract_table_data (rows : List (List Cell)) : List (Dict PyVal) :=
  rows.filterMap extract_row

/-- The listing site as the pagination loop observes it. -/
structure Site where
  pageRows : Nat → List (List Cell)
  nextButtonClass : Nat → Option (List Nat)

/-- Model of `TichaScraper._has_next_page` (scraper.py lines 143–163): `false` when
the `myTable_next` button cannot be found, `false` when its class
attribute contains the substring `disabled`, `true` otherwise. -/
def has_next_page (site : Site) (page : Nat) : Bool :=
  match site.nextButtonClass page with
  | none => false
  | some classes => !(decide (List.IsInfix (str ("disabled")) classes))

/-- Model of `TichaScraper._go_to_next_page` (scraper.py lines 165–188): re-checks
the button and its `disabled` class before clicking; in this model a click
on an enabled button always succeeds. -/
def go_to_next_page (site : Site) (page : Nat) : Bool :=
  match site.nextButtonClass page with
  | none => false
  | some classes => !(decide (List.IsInfix (str ("disabled")) classes))

/-- The `while True` pagination loop of `scrape_manuscripts` (scraper.py
lines 211–236): extract the current page, stop when `_has_next_page` or
`_go_to_next_page` reports no next page, advance otherwise, and stop
unconditionally once the incremented page number exceeds 100.  Besides the
accumulated records the model returns, as an observation trace, the list
of page numbers whose table was extracted. -/
def scrapeLoop (site : Site) (page_num : Nat) (all_data : List (Dict PyVal))
    (visited : List Nat) : List (Dict PyVal) × List Nat :=
  let all_data2 := all_data ++ extract_table_data (site.pageRows page_num)
  let visited2 := visited ++ [page_num]
  if has_next_page site page_num = false then (all_data2, visited2)
  else if go_to_next_page site page_num = false then (all_data2, visited2)
  else if page_num + 1 > 100 then (all_data2, visited2)
  else scrapeLoop site (page_num + 1) all_data2 visited2
termination_by 101 - page_num
decreasing_by omega

/-- Model of `TichaScraper.scrape_manuscripts` (scraper.py lines 190–253), from the
initial page 1. -/
def scrape_manuscripts (site : Site) : List (Dict PyVal) × List Nat :=
  scrapeLoop site 1 [] []

theorem go_to_next_page_eq_has (site : Site) (page : Nat) :
    go_to_next_page site page = has_next_page site page := rfl

theorem scrapeLoop_visited_cap (site : Site)
    (hnext : ∀ p, has_next_page site p = true) :
    ∀ (k n : Nat) (acc : List (Dict PyVal)) (vis : List Nat),
      n + k = 100 → 1 ≤ n →
      (scrapeLoop site n acc vis).2 = vis ++ List.range' n (k + 1) := by
  intro k
  induction k with
  | zero =>
    intro n acc vis hnk h1
    have h100 : n = 100 := by omega
    subst h100
    rw [scrapeLoop]
    simp only [hnext 100, go_to_next_page_eq_has]
    norm_num
  | succ k ih =>
    intro n acc vis hnk h1
    rw [scrapeLoop]
    simp only [hnext n, go_to_next_page_eq_has]
    rw [if_neg (by simp), if_neg (by simp), if_neg (by omega)]
    rw [ih (n + 1) _ _ (by omega) (by omega)]
    rw [List.range'_succ, List.range'_succ]
    simp
    rw [List.range'_succ]

theorem scrapeLoop_visited_disabled (site : Site) :
    ∀ (k n : Nat) (acc : List (Dict PyVal)) (vis : List Nat),
      1 ≤ n → n + k ≤ 100 →
      (∀ p, n ≤ p → p < n + k → has_next_page site p = true) →
      has_next_page site (n + k) = false →
      (scrapeLoop site n acc vis).2 = vis ++ List.range' n (k + 1) := by
  intro k
  induction k with
  | zero =>
    intro n acc vis h1 hcap hnext hdis
    rw [scrapeLoop]
    rw [if_pos (by simpa using hdis)]
    simp
  | succ k ih =>
    intro n acc vis h1 hcap hnext hdis
    have hn : has_next_page site n = true := hnext n (le_refl n) (by omega)
    rw [scrapeLoop]
    simp only [hn, go_to_next_page_eq_has]
    rw [if_neg (by simp), if_neg (by simp), if_neg (by omega)]
    rw [ih (n + 1) _ _ (by omega) (by omega)
      (fun p hp1 hp2 => hnext p (by omega) (by omega)) (by
        have : n + 1 + k = n + (k + 1) := by omega
        rw [this]
        exact hdis)]
    rw [List.range'_succ, List.range'_succ]
    simp
    rw [List.range'_succ]

/-- The insertion-ordered keys of every accepted listing row
(scraper.py lines 111–123). -/
def listingKeys : List (List Nat) :=
  [str ("document_name"), str ("document_link"), str ("file_type"), str ("ticha_id"),
   str ("year"), str ("town"), str ("archive"), str ("doc_type"), str ("language"),
   str ("trptn_status"), str ("legibility")]

/-- A table cell with plain text `X` and no embedded link. -/
def sampleCell : Cell := { text := str ("X"), anchor := none }

/-- The record `extract_row` builds from ten copies of `sampleCell`. -/
def sampleRecord : Dict PyVal :=
  [(str ("document_name"), some (str ("X"))), (str ("document_link"), none),
   (str ("file_type"), some (str ("X"))), (str ("ticha_id"), some (str ("X"))),
   (str ("year"), some (str ("X"))), (str ("town"), some (str ("X"))),
   (str ("archive"), some (str ("X"))), (str ("doc_type"), some (str ("X"))),
   (str ("language"), some (str ("X"))), (str ("trptn_status"), some (str ("X"))),
   (str ("legibility"), some (str ("X")))]

/-- A site whose pagination button is present and never disabled. -/
def siteAlways : Site :=
  { pageRows := fun _ => [],
    nextButtonClass := fun _ => some (str ("paginate_button next")) }

/-- A site whose pagination button reports `disabled` from page 3 on. -/
def siteThree : Site :=
  { pageRows := fun _ => [],
    nextButtonClass := fun p =>
      if p < 3 then some (str ("paginate_button next"))
      else some (str ("paginate_button next disabled")) }

/-! ## The `close` method of `TichaTextScraper`

`TichaTextScraper.__init__` (text_scraper.py lines 19–29) assigns exactly
the attributes `rate_limit`, `headless` and `base_url` on `self`,
whatever its arguments are; no other method of the class assigns any
attribute on `self` before reading it (`close`, lines 250–255, assigns
`self.driver` only inside the branch guarded by reading `self.driver`).
We model the attribute names an instance carries and the effect of
`close` reading the never-assigned `driver` attribute. -/

/-- The attribute names assigned by `__init__`, for any constructor
arguments. -/
def textScraperInitAttrs : List (List Nat) :=
  [str ("rate_limit"), str ("headless"), str ("base_url")]

/-- The methods of `TichaTextScraper` other than `__init__` and `close`. -/
inductive TextScraperMethod where
  | get_page
  | intelligent_delay
  | normalize_metadata_key
  | extract_metadata
  | extract_text_content
  | scrape_document
  | scrape_documents_from_dataframe

/-- The attribute names a method body assigns on `self`: none of the
method bodies (text_scraper.py lines 31–248) contains an attribute
assignment. -/
def methodAttrWrites : TextScraperMethod → List (List Nat) := fun _ => []

/-- The attribute names an instance carries after `__init__` and any
sequence of method calls. -/
def attrsAfter (calls : List TextScraperMethod) : List (List Nat) :=
  calls.foldl (fun a m => a ++ methodAttrWrites m) textScraperInitAttrs

/-- The Python exception outcome we track. -/
inductive PyExc where
  | attributeError
deriving DecidableEq

/-- Model of `TichaTextScraper.close` (text_scraper.py lines 250–255): evaluating
`if self.driver:` reads the `driver` attribute and raises
`AttributeError` when the instance does not carry it. -/
def close (attrs : List (List Nat)) : Except PyExc Unit :=
  if str ("driver") ∈ attrs then Except.ok () else Except.error PyExc.attributeError

theorem attrsAfter_eq_init :
    ∀ (calls : List TextScraperMethod), attrsAfter calls = textScraperInitAttrs := by
  have aux : ∀ (ms : List TextScraperMethod) (a : List (List Nat)),
      ms.foldl (fun a m => a ++ methodAttrWrites m) a = a := by
    intro ms
    induction ms with
    | nil => intro a; rfl
    | cons m ms ih =>
      intro a
      rw [List.foldl_cons]
      have : a ++ methodAttrWrites m = a := by simp [methodAttrWrites]
      rw [this]
      exact ih a
  intro calls
  exact aux calls textScraperInitAttrs

end Ticha

namespace Ticha

/-! ## Claim theorems -/

/-- C1 (amended): when a metadata key collides with one of the four fixed
field names, the *metadata* value takes precedence in the record returned
by `scrape_document`: the dict literal inserts the fixed fields first and
then unpacks `**metadata`, and a later insertion overrides an earlier
one.  In general, every entry of the metadata map appears unchanged in
the merged record. -/
theorem C1_metadata_overrides_fixed :
    ∀ (page : Page) (url k v : List Nat),
      dictGet (extractMetadata page.metadataDiv) k = some v →
      dictGet (scrape_document (some page) url).record k = some (some v) := by
  intro page url k v h
  simp only [scrape_document]
  rw [dictGet_append, dictGet_map_some, h]
  rfl

/-- Witness for C1: on a page whose metadata line `URL: meta` produces the
key `url`, the returned record maps `url` to the metadata value `meta`,
not to the fixed document URL. -/
theorem C1_metadata_overrides_fixed_witness :
    dictGet (scrape_document (some collidingPage) (str ("http://x"))).record
      (str ("url")) = some (some (str ("meta"))) :=
  C1_metadata_overrides_fixed collidingPage (str ("http://x")) (str ("url"))
    (str ("meta")) (by decide)

/-- C1 counterexample: for the collision page the record carries the
metadata value `meta` for the key `url`, which differs from the fixed
field value `http://x`; so the fixed field does not take precedence. -/
theorem C1_counterexample :
    dictGet (scrape_document (some collidingPage) (str ("http://x"))).record
        (str ("url")) = some (some (str ("meta")))
    ∧ (str ("meta") : List Nat) ≠ str ("http://x") := by
  exact ⟨by decide, by decide⟩

/-- C3: the combined record built by the batch runner is the key-wise
union of the listing row and the document record, the document record
winning on collision and row-only keys keeping the row value. -/
theorem C3_combined_union :
    ∀ (row doc : Dict PyVal) (k : List Nat),
      dictGet (combineRecord row doc) k =
        match dictGet doc k with
        | some v => some v
        | none => dictGet row k := by
  intro row doc k
  unfold combineRecord
  rw [dictGet_append]
  cases dictGet doc k <;> rfl

/-- C6: paragraph blocks of a content region are stripped, empty ones
dropped, the survivors joined with a blank-line separator; three
paragraphs join as the spec states, and an absent region yields `none`,
never an error. -/
theorem C6_region_extraction :
    extractTextContent none = none
    ∧ (∀ ps, extractTextContent (some ps) =
        (if (ps.map pyStrip).filter (fun t => !t.isEmpty) = [] then none
         else some (List.intercalate (str ("\n\n"))
           ((ps.map pyStrip).filter (fun t => !t.isEmpty)))))
    ∧ extractTextContent (some [str ("A."), str ("B."), str ("C.")]) =
        some (str ("A.\n\nB.\n\nC.")) := by
  refine ⟨rfl, ?_, by decide⟩
  intro ps
  simp only [extractTextContent, gatherParas_eq]

/-- C7 (amended): the rate-limit delay runs exactly once on the successful
path of `scrape_document`, but zero times on the error path: the
`_intelligent_delay()` call sits after extraction inside the `try` block,
and the `except` branch returns the `{url, error}` record without reaching
it. -/
theorem C7_delay_on_success_only :
    ∀ (page : Page) (url : List Nat),
      (scrape_document (some page) url).delays = 1
      ∧ (scrape_document none url).delays = 0 :=
  fun _ _ => ⟨rfl, rfl⟩

/-- C7 counterexample: a call whose fetch fails returns the error record
having applied the delay zero times, not once. -/
theorem C7_counterexample :
    (scrape_document none (str ("http://x"))).delays = 0
    ∧ ¬((scrape_document none (str ("http://x"))).delays = 1)
    ∧ dictGet (scrape_document none (str ("http://x"))).record (str ("error"))
        ≠ none := by
  exact ⟨rfl, by decide, by decide⟩

/-- C9: because line 224 tests `if max_documents:` (Python truthiness), a
zero limit behaves exactly like no limit, and every link-bearing row is
processed. -/
theorem C9_max_documents_zero :
    ∀ (fetch : List Nat → Option Page) (df : List (Dict PyVal)) (lc : List Nat),
      scrape_documents_from_dataframe fetch df lc (some 0) =
        scrape_documents_from_dataframe fetch df lc none
      ∧ (scrape_documents_from_dataframe fetch df lc (some 0)).length =
          (df.filter (fun r => linkNonEmpty r lc)).length := by
  intro fetch df lc
  refine ⟨rfl, ?_⟩
  simp [scrape_documents_from_dataframe]

/-- C4 (amended): the key normalizer is total, and for every input string
the output has no leading underscore, no trailing underscore and no two
consecutive underscores, and consists only of word characters; the
guarantee that every output character lies in `[a-z0-9_]` holds for ASCII
input strings (Python `\w` is Unicode-aware, so non-ASCII word characters
such as `ñ` survive normalization unchanged).  The two spec examples
evaluate as stated. -/
theorem C4_normalizer_total_shape :
    (∀ l : List Nat, (∀ d ∈ l, d < 128) → ∀ c ∈ normalizeKey l, okChar c = true)
    ∧ (∀ l : List Nat, ∀ c ∈ normalizeKey l, isWordChar c = true)
    ∧ (∀ l : List Nat, GoodUnderscoreShape (normalizeKey l))
    ∧ normalizeKey (str ("Town (Modern Official)")) = str ("town_modern_official")
    ∧ normalizeKey (str ("Date Digitized")) = str ("date_digitized") :=
  ⟨fun _ hl _ hc => normalizeKey_ascii_ok hl hc,
   fun _ _ hc => (mem_normalizeKey hc).1,
   normalizeKey_shape,
   by decide, by decide⟩

/-- Witness for C4: the amended theorem applied to the concrete input
`"Date Digitized"` and its output code point `t` (116). -/
theorem C4_normalizer_total_shape_witness : okChar 116 = true :=
  C4_normalizer_total_shape.1 (str ("Date Digitized")) (by decide) 116 (by decide)

/-- C4 counterexample: on the input `"Ñ"` the normalizer outputs `"ñ"`
(code point 241), which is not in `[a-z0-9_]`, refuting the claim that
every output character of every input lies in `[a-z0-9_]`. -/
theorem C4_counterexample :
    normalizeKey (str ("Ñ")) = str ("ñ") ∧ 241 ∈ normalizeKey (str ("Ñ")) ∧
      okChar 241 = false :=
  ⟨by decide, by decide, by decide⟩

/-- C5: the key normalizer is idempotent: normalizing an already
normalized key returns it unchanged. -/
theorem C5_normalizeKey_idempotent :
    ∀ l : List Nat, normalizeKey (normalizeKey l) = normalizeKey l :=
  normalizeKey_idem

/-- C2: the listing traversal terminates unconditionally: when the
pagination control never reports disabled (and is present), exactly the
100 pages of the fixed cap are extracted; when the control first reports
disabled on page d — or is absent there, which `has_next_page` also maps
to `false` — traversal stops after extracting pages 1 through d. -/
theorem C2_pagination_termination :
    (∀ site : Site, (∀ p, has_next_page site p = true) →
        (scrape_manuscripts site).2 = List.range' 1 100
        ∧ (scrape_manuscripts site).2.length = 100)
    ∧ (∀ (site : Site) (d : Nat), 1 ≤ d → d ≤ 100 →
        (∀ p, 1 ≤ p → p < d → has_next_page site p = true) →
        has_next_page site d = false →
        (scrape_manuscripts site).2 = List.range' 1 d) := by
  constructor
  · intro site hnext
    have h := scrapeLoop_visited_cap site hnext 99 1 [] [] (by omega) (by omega)
    constructor
    · simpa [scrape_manuscripts] using h
    · have h2 : (scrape_manuscripts site).2 = List.range' 1 100 := by
        simpa [scrape_manuscripts] using h
      rw [h2]
      simp
  · intro site d h1 h100 hnext hdis
    have h := scrapeLoop_visited_disabled site (d - 1) 1 [] [] (by omega) (by omega)
      (fun p hp1 hp2 => hnext p hp1 (by omega)) (by
        have he : 1 + (d - 1) = d := by omega
        rw [he]
        exact hdis)
    have hd : d - 1 + 1 = d := by omega
    rw [hd] at h
    simpa [scrape_manuscripts] using h

/-- Witness for C2: on a site whose button is never disabled the loop
visits exactly 100 pages, and on a site first disabled at page 3 it
visits pages 1, 2 and 3. -/
theorem C2_pagination_termination_witness :
    (scrape_manuscripts siteAlways).2.length = 100
    ∧ (scrape_manuscripts siteThree).2 = List.range' 1 3 := by
  constructor
  · exact (C2_pagination_termination.1 siteAlways (fun p => rfl)).2
  · exact C2_pagination_termination.2 siteThree 3 (by omega) (by omega)
      (fun p hp1 hp2 => by interval_cases p <;> decide) (by decide)

/-- C8 (amended): every accepted listing row has exactly the eleven
attributes `document_name`, `document_link`, `file_type`, `ticha_id`,
`year`, `town`, `archive`, `doc_type`, `language`, `trptn_status` and
`legibility`, where `document_link` is optional and all others carry
string values.  The transcription-status column is named `trptn_status`
in the code (scraper.py line 121), not `transcription_status` as the
claim states. -/
theorem C8_row_attributes :
    ∀ (rows : List (List Cell)) (d : Dict PyVal), d ∈ extract_table_data rows →
      dictKeys d = listingKeys
      ∧ ∀ p ∈ d, p.1 = str ("document_link") ∨ p.2.isSome = true := by
  intro rows d hd
  obtain ⟨cells, hcells, hc⟩ := List.mem_filterMap.mp hd
  clear hcells
  rcases cells with _ | ⟨c0, cells⟩
  · simp [extract_row] at hc
  rcases cells with _ | ⟨c1, cells⟩
  · simp [extract_row] at hc
  rcases cells with _ | ⟨c2, cells⟩
  · simp [extract_row] at hc
  rcases cells with _ | ⟨c3, cells⟩
  · simp [extract_row] at hc
  rcases cells with _ | ⟨c4, cells⟩
  · simp [extract_row] at hc
  rcases cells with _ | ⟨c5, cells⟩
  · simp [extract_row] at hc
  rcases cells with _ | ⟨c6, cells⟩
  · simp [extract_row] at hc
  rcases cells with _ | ⟨c7, cells⟩
  · simp [extract_row] at hc
  rcases cells with _ | ⟨c8, cells⟩
  · simp [extract_row] at hc
  rcases cells with _ | ⟨c9, cells⟩
  · simp [extract_row] at hc
  simp only [extract_row] at hc
  split_ifs at hc
  rw [Option.some_inj] at hc
  subst hc
  refine ⟨rfl, ?_⟩
  intro p hp
  simp only [List.mem_cons, List.not_mem_nil, or_false] at hp
  rcases hp with rfl | rfl | rfl | rfl | rfl | rfl | rfl | rfl | rfl | rfl | rfl <;> simp

/-- Witness for C8: the amended theorem applied to a concrete single-row
table whose ten cells all show the text `X`. -/
theorem C8_row_attributes_witness :
    dictKeys sampleRecord = listingKeys
    ∧ ∀ p ∈ sampleRecord, p.1 = str ("document_link") ∨ p.2.isSome = true :=
  C8_row_attributes [List.replicate 10 sampleCell] sampleRecord (by decide)

/-- C8 counterexample: the accepted row extracted from a concrete table
carries the key `trptn_status` and no key `transcription_status`, so the
claimed attribute set is wrong about that name. -/
theorem C8_counterexample :
    (extract_table_data [List.replicate 10 sampleCell]).map dictKeys = [listingKeys]
    ∧ str ("transcription_status") ∉ listingKeys
    ∧ str ("trptn_status") ∈ listingKeys :=
  ⟨by decide, by decide, by decide⟩

/-- C10: `close` always raises `AttributeError`: `__init__` assigns only
`rate_limit`, `headless` and `base_url` regardless of its arguments, no
method body assigns any attribute, and `close` starts by reading the
never-assigned `driver` attribute. -/
theorem C10_close_attribute_error :
    ∀ (calls : List TextScraperMethod),
      close (attrsAfter calls) = Except.error PyExc.attributeError := by
  intro calls
  rw [attrsAfter_eq_init]
  rfl

end Ticha

section Examples

example : Ticha.normalizeKey (Ticha.str ("Town (Modern Official)")) =
    Ticha.str ("town_modern_official") := by decide

example : Ticha.normalizeKey (Ticha.str ("Date Digitized")) =
    Ticha.str ("date_digitized") := by decide

example : Ticha.normalizeKey (Ticha.str ("Ñ")) = Ticha.str ("ñ") := by decide

example : Ticha.normalizeKey (Ticha.str ("  -_-  ")) = [] := by decide

end Examples
